import Mathlib

/-!
Verification of the Smart-Attendence-System IoT core against its
natural-language specification.

This file contains a shallow embedding, in Lean 4, of the parts of the
repository that the frozen claims talk about:

* `src/iot_module/mqtt-client.py` — `MQTTClient._topic_matches`,
  `MQTTClient._on_message`, `MQTTClient._handle_control_message`;
* `src/iot_module/device-manager.py` — the `DeviceManager` registry
  (`register_device`, `unregister_device`, `update_device_heartbeat`,
  `_monitor_heartbeats` (one sweep iteration), `broadcast_message`);
* `src/iot_module/data_processor.py` — the `DataProcessor` bounded queue
  (`process_image`, `process_data`, the consumer pop) and
  `_process_attendance_data`.

Python dictionaries are embedded as association lists (`alookup`,
`aupdate`, `aremove`), Python sets as duplicate-free lists (`sinsert`,
`sremove`), timestamps as `Nat` (registry) or `Int` (pipeline), and the
external collaborators (HTTP delivery, the durable store, the MQTT
transport) as explicit outcome parameters so that the claims about
failure isolation can be stated.
-/

namespace SmartAttendance

/-! ### Association-list and set primitives (embedding of Python dict/set) -/

/-- Lookup in an association list; embeds Python `d[k]` / `k in d`. -/
def alookup {β : Type} (k : String) : List (String × β) → Option β
  | [] => none
  | (k', v) :: rest => if k = k' then some v else alookup k rest

/-- Insert-or-overwrite; embeds Python `d[k] = v`. -/
def aupdate {β : Type} (k : String) (v : β) : List (String × β) → List (String × β)
  | [] => [(k, v)]
  | (k', v') :: rest => if k = k' then (k, v) :: rest else (k', v') :: aupdate k v rest

/-- Key removal; embeds Python `del d[k]`. -/
def aremove {β : Type} (k : String) (l : List (String × β)) : List (String × β) :=
  l.filter (fun e => e.1 ≠ k)

/-- Set insertion; embeds Python `s.add(x)` on a set represented as a
duplicate-free list. -/
def sinsert (x : String) (l : List String) : List String :=
  if x ∈ l then l else l ++ [x]

/-- Set removal; embeds Python `s.discard(x)`. -/
def sremove (x : String) (l : List String) : List String :=
  l.filter (fun y => y ≠ x)

/-! ### Topic matcher (embedding of `MQTTClient._topic_matches`) -/

/-- Embeds Python `str.split('/')` at the character level: splitting an
empty string yields `[""]`, `"a/b"` yields `["a", "b"]`, etc. -/
def splitOnChar (c : Char) : List Char → List (List Char)
  | [] => [[]]
  | x :: xs =>
    let r := splitOnChar c xs
    if x = c then [] :: r
    else
      match r with
      | [] => [[x]]
      | t :: ts => (x :: t) :: ts

/-- The `/`-token list of a topic or subscription string, embedding
`subscription.split('/')` from `_topic_matches`. -/
def tokens (s : String) : List String :=
  (splitOnChar '/' s.data).map String.mk

/-- The token-by-token loop of `MQTTClient._topic_matches`: `#` matches
immediately, `+` advances without a bounds check (`continue`), a literal
token requires a same-position topic token that is equal. -/
def matchLoop : List String → List String → Bool
  | [], _ => true
  | p :: ps, ts =>
    if p = "#" then true
    else if p = "+" then matchLoop ps ts.tail
    else
      match ts with
      | [] => false
      | t :: ts' => if p = t then matchLoop ps ts' else false

/-- Embedding of `MQTTClient._topic_matches(subscription, topic)`:
the up-front length check (no match when token counts differ and the
pattern has no `#`), then the token loop. -/
def topic_matches (subscription topic : String) : Bool :=
  let sub_parts := tokens subscription
  let topic_parts := tokens topic
  if sub_parts.length ≠ topic_parts.length ∧ "#" ∉ sub_parts then false
  else matchLoop sub_parts topic_parts

/-! ### Liveness registry (embedding of `DeviceManager`) -/

/-- Device status, the `'active'` / `'offline'` strings of the source. -/
inductive DStatus
  | active
  | offline
deriving DecidableEq

/-- One entry of `DeviceManager.devices`; the `connection_info` metadata
is informational only and elided, timestamps are `Nat` seconds. -/
structure DeviceInfo where
  ip_address : String
  status : DStatus
  last_heartbeat : Nat
deriving DecidableEq

/-- The `DeviceManager` state: the device map, the active-device set
(a duplicate-free list), the sweep parameters, and the external durable
store (the `Device` table touched through `Device.objects(...)`),
modelled so that sync failures can be expressed. -/
structure DeviceManager where
  devices : List (String × DeviceInfo)
  active_devices : List String
  heartbeat_interval : Nat
  heartbeat_timeout : Nat
  db : List (String × DStatus)
deriving DecidableEq

/-- `DeviceManager.__init__`: empty registry, 60 s sweep interval,
300 s heartbeat timeout. -/
def initDM : DeviceManager := ⟨[], [], 60, 300, []⟩

/-- `DeviceManager.register_device` (the call always returns `True`, so
only the state is modelled): insert-or-overwrite the record with status
Active and `last_heartbeat = now`, and add the id to the active set. -/
def register_device (s : DeviceManager) (device_id ip_address : String) (now : Nat) :
    DeviceManager :=
  { s with
    devices := aupdate device_id ⟨ip_address, DStatus.active, now⟩ s.devices,
    active_devices := sinsert device_id s.active_devices }

/-- The durable-store write performed on heartbeat/sweep: look the device
up in the external table and, when present, overwrite its status
(`Device.objects(device_id=...).first(); device.save()`). -/
def dbSync (device_id : String) (st : DStatus) (db : List (String × DStatus)) :
    List (String × DStatus) :=
  match alookup device_id db with
  | some _ => aupdate device_id st db
  | none => db

/-- `DeviceManager.update_device_heartbeat`: when the device is known,
stamp `last_heartbeat = now`, force status Active, re-add to the active
set, attempt the durable sync (`dbFail = true` models the caught
exception branch: the sync is skipped, nothing else changes), and return
`true`; otherwise return `false` and leave the state alone. -/
def update_device_heartbeat (s : DeviceManager) (device_id : String) (now : Nat)
    (dbFail : Bool) : Bool × DeviceManager :=
  match alookup device_id s.devices with
  | some info =>
    (true,
      { s with
        devices := aupdate device_id
          { info with status := DStatus.active, last_heartbeat := now } s.devices,
        active_devices := sinsert device_id s.active_devices,
        db := if dbFail then s.db else dbSync device_id DStatus.active s.db })
  | none => (false, s)

/-- `DeviceManager.unregister_device`: delete the record and discard the
active-set membership when present, reporting whether anything was
removed. -/
def unregister_device (s : DeviceManager) (device_id : String) : Bool × DeviceManager :=
  match alookup device_id s.devices with
  | some _ =>
    (true,
      { s with
        devices := aremove device_id s.devices,
        active_devices := sremove device_id s.active_devices })
  | none => (false, s)

/-- `DeviceManager.get_device_status`: `some` status for a known device,
`none` embedding the `'unknown'` answer. -/
def get_device_status (s : DeviceManager) (device_id : String) : Option DStatus :=
  (alookup device_id s.devices).map (fun i => i.status)

/-- The per-device sweep test of `_monitor_heartbeats`:
`time_diff > heartbeat_timeout and status == 'active'`. -/
def sweepCond (timeout now : Nat) (i : DeviceInfo) : Bool :=
  decide (timeout < now - i.last_heartbeat) && (i.status == DStatus.active)

/-- What one sweep iteration does to a single record: flip a stale
Active record to Offline, keep everything else unchanged. -/
def sweepInfo (timeout now : Nat) (i : DeviceInfo) : DeviceInfo :=
  if sweepCond timeout now i then { i with status := DStatus.offline } else i

/-- One iteration of the `DeviceManager._monitor_heartbeats` loop at
clock `now`: every stale Active record is flipped to Offline and
discarded from the active set, then each swept device is synced to the
durable store (a `dbFail` device models the caught per-device exception:
its sync is skipped). No record is ever removed. -/
def monitor_heartbeats_sweep (s : DeviceManager) (now : Nat) (dbFail : String → Bool) :
    DeviceManager :=
  let swept := (s.devices.filter (fun e => sweepCond s.heartbeat_timeout now e.2)).map Prod.fst
  { s with
    devices := s.devices.map (fun e => (e.1, sweepInfo s.heartbeat_timeout now e.2)),
    active_devices := s.active_devices.filter (fun id => decide (id ∉ swept)),
    db := swept.foldl (fun db id => if dbFail id then db else dbSync id DStatus.offline db) s.db }

/-- Outcome of one HTTP delivery attempt inside `broadcast_message`:
a 200 reply, a non-200 reply, or a raised exception. -/
inductive BOutcome
  | ok
  | httpFail
  | exn
deriving DecidableEq

/-- The fan-out loop of `DeviceManager.broadcast_message` over the
active-device snapshot: devices missing from the map are skipped
(`continue`), a 200 reply bumps `sent_count`, a non-200 reply or an
exception bumps `failed_count`; no abort, no retry. -/
def broadcastGo (devices : List (String × DeviceInfo)) (outcome : String → BOutcome) :
    List String → Nat × Nat
  | [] => (0, 0)
  | id :: rest =>
    let r := broadcastGo devices outcome rest
    match alookup id devices with
    | none => r
    | some _ =>
      match outcome id with
      | BOutcome.ok => (r.1 + 1, r.2)
      | BOutcome.httpFail => (r.1, r.2 + 1)
      | BOutcome.exn => (r.1, r.2 + 1)

/-- `DeviceManager.broadcast_message`: returns
`(sent_count, failed_count)` for the given per-device delivery
outcomes. -/
def broadcast_message (s : DeviceManager) (outcome : String → BOutcome) : Nat × Nat :=
  broadcastGo s.devices outcome s.active_devices

/-- The registry invariant of C3: keys are unique (a device_id appears
at most once) and a device id is an active-set member exactly when its
record exists with status Active. -/
def RegInv (s : DeviceManager) : Prop :=
  (s.devices.map Prod.fst).Nodup ∧
  ∀ id : String, id ∈ s.active_devices ↔ get_device_status s id = some DStatus.active

/-- Clock values are pairwise non-decreasing and bounded below by `t0`. -/
def nondecFrom (t0 : Nat) : List Nat → Bool
  | [] => true
  | t :: ts => decide (t0 ≤ t) && nondecFrom t ts

/-- A sequence of `update_device_heartbeat` calls, each
`(device_id, now, dbFail)`. -/
def runHeartbeats (s : DeviceManager) : List (String × Nat × Bool) → DeviceManager
  | [] => s
  | c :: rest => runHeartbeats (update_device_heartbeat s c.1 c.2.1 c.2.2).2 rest

/-- A registry holding the single device `"cam1"` registered at time 0. -/
def dmEx : DeviceManager := register_device initDM "cam1" "10.0.0.5" 0

/-- A registry with three active devices, for the broadcast scenario. -/
def dm3 : DeviceManager :=
  register_device
    (register_device (register_device initDM "d1" "10.0.0.1" 0) "d2" "10.0.0.2" 0)
    "d3" "10.0.0.3" 0

/-- Delivery outcomes where exactly the device `"d2"` fails. -/
def out3 : String → BOutcome := fun id => if id = "d2" then BOutcome.exn else BOutcome.ok

/-! ### Ingestion pipeline (embedding of `DataProcessor`) -/

/-- The metadata mapping attached to a queued item; only the keys the
pipeline reads (`location`, `report_to_backend`) are modelled. -/
structure Meta where
  location : Option String
  report_to_backend : Bool
deriving DecidableEq

/-- An attendance payload dictionary: the keys read by
`_process_attendance_data` (`user_id`, `verification_method`,
`status`), each possibly absent; `some ""` models a present-but-empty
value, which Python's `if not user_id` also rejects. -/
structure AttPayload where
  user_id : Option String
  verification_method : Option String
  status : Option String
deriving DecidableEq

/-- The kind-specific payload of a queued work item. -/
inductive Payload
  | image (data : String)
  | att (data : AttPayload)
  | raw (data : String)
deriving DecidableEq

/-- One entry of `DataProcessor.processing_queue` (`type`, `data`,
`metadata`, `timestamp`). -/
structure QItem where
  ty : String
  payload : Payload
  meta : Meta
  timestamp : Int
deriving DecidableEq

/-- The `DataProcessor` state: the bounded queue, its capacity, and the
per-subject cooldown map `last_attendance_time` with its interval. -/
structure DataProcessor where
  device_id : String
  processing_queue : List QItem
  max_queue_size : Nat
  last_attendance_time : List (String × Int)
  min_attendance_interval : Int
deriving DecidableEq

/-- `DataProcessor.__init__`: empty queue, capacity 100, empty cooldown
map, 60 s cooldown interval. -/
def initDP (device_id : String) : DataProcessor := ⟨device_id, [], 100, [], 60⟩

/-- `DataProcessor.process_image`: drop and report `False` when the
queue already holds `max_queue_size` items, otherwise append an
`'image'` item and report `True`. -/
def process_image (dp : DataProcessor) (image_data : String) (meta : Meta) (now : Int) :
    Bool × DataProcessor :=
  if dp.max_queue_size ≤ dp.processing_queue.length then (false, dp)
  else
    (true, { dp with processing_queue :=
      dp.processing_queue ++ [⟨"image", Payload.image image_data, meta, now⟩] })

/-- `DataProcessor.process_data`: the same bounded enqueue for an
arbitrary `data_type`. -/
def process_data (dp : DataProcessor) (data : Payload) (data_type : String) (meta : Meta)
    (now : Int) : Bool × DataProcessor :=
  if dp.max_queue_size ≤ dp.processing_queue.length then (false, dp)
  else
    (true, { dp with processing_queue :=
      dp.processing_queue ++ [⟨data_type, data, meta, now⟩] })

/-- The queue-touching operations a reachable `DataProcessor` state is
built from: the two producer enqueues and the consumer's
`processing_queue.pop(0)`. -/
inductive DPOp
  | enqImage (image_data : String) (meta : Meta) (now : Int)
  | enqData (data : Payload) (data_type : String) (meta : Meta) (now : Int)
  | deq

/-- Apply one queue operation, discarding the reported flag. -/
def applyOp (dp : DataProcessor) : DPOp → DataProcessor
  | DPOp.enqImage d m t => (process_image dp d m t).2
  | DPOp.enqData d ty m t => (process_data dp d ty m t).2
  | DPOp.deq => { dp with processing_queue := dp.processing_queue.tail }

/-- Run a sequence of queue operations. -/
def runOps (dp : DataProcessor) : List DPOp → DataProcessor
  | [] => dp
  | op :: rest => runOps (applyOp dp op) rest

/-- The attendance assertion forwarded to the backend by
`_process_attendance_data` (the JSON body of the
`/api/attendance/mark` POST). -/
structure AttendanceReport where
  user_id : String
  device_id : String
  timestamp : Int
  verification_method : String
  location : String
  status : String
deriving DecidableEq

/-- Embedding of `DataProcessor._process_attendance_data`: no (or
empty) `user_id` discards the item untouched; a subject within the
cooldown window is discarded as a duplicate without updating the map;
otherwise the cooldown timestamp is set and the report forwarded
(returned as `some`). The forward itself is best-effort and does not
affect the state. -/
def process_attendance_data (device_id : String) (interval : Int)
    (last_attendance_time : List (String × Int)) (data : AttPayload) (meta : Meta)
    (timestamp : Int) : List (String × Int) × Option AttendanceReport :=
  match data.user_id with
  | none => (last_attendance_time, none)
  | some user_id =>
    if user_id = "" then (last_attendance_time, none)
    else
      match alookup user_id last_attendance_time with
      | some last_time =>
        if timestamp - last_time < interval then (last_attendance_time, none)
        else
          (aupdate user_id timestamp last_attendance_time,
           some ⟨user_id, device_id, timestamp, data.verification_method.getD "manual",
             meta.location.getD "", data.status.getD "present"⟩)
      | none =>
        (aupdate user_id timestamp last_attendance_time,
         some ⟨user_id, device_id, timestamp, data.verification_method.getD "manual",
           meta.location.getD "", data.status.getD "present"⟩)

/-! ### Control-message handling (embedding of `MQTTClient`) -/

/-- The device's own control topic, `devices/{device_id}/control`. -/
def control_topic (device_id : String) : String := "devices/" ++ device_id ++ "/control"

/-- The reply topic for command acknowledgements,
`devices/{device_id}/control/ack`. -/
def control_ack_topic (device_id : String) : String :=
  "devices/" ++ device_id ++ "/control/ack"

/-- One acknowledgement publish attempted by
`_handle_control_message` (topic, `command` field, `status` field; the
timestamp field carries no information for the claims). -/
structure AckMsg where
  topic : String
  command : String
  status : Option String
deriving DecidableEq

/-- A decoded control payload: `malformed` models a `json.loads`
failure (the surrounding `except` swallows it), otherwise the decoded
object's optional `command` field. -/
inductive ControlPayload
  | malformed
  | json (command : Option String)
deriving DecidableEq

/-- Embedding of `MQTTClient._handle_control_message`, returning the
list of acknowledgement publishes it performs: `restart`, `config` and
`ping` each publish exactly one ack on the reply topic; a missing or
empty command and an unknown command are only logged — the source's
`else` branch publishes nothing. -/
def handle_control_message (device_id : String) : ControlPayload → List AckMsg
  | ControlPayload.malformed => []
  | ControlPayload.json none => []
  | ControlPayload.json (some command) =>
    if command = "" then []
    else if command = "restart" then
      [⟨control_ack_topic device_id, command, some "received"⟩]
    else if command = "config" then
      [⟨control_ack_topic device_id, command, some "applied"⟩]
    else if command = "ping" then
      [⟨control_ack_topic device_id, "pong", none⟩]
    else []

/-- Embedding of `MQTTClient._on_message` routing (handlers are opaque
ids): the device's own control topic goes to the control handler, an
exact callback match is invoked, otherwise the first wildcard match via
`_topic_matches` is invoked, otherwise the message is only logged;
returns the acks published and the invoked handler, if any. -/
def on_message (device_id : String) (callbacks : List (String × Nat)) (topic : String)
    (p : ControlPayload) : List AckMsg × Option Nat :=
  if topic = control_topic device_id then (handle_control_message device_id p, none)
  else
    match alookup topic callbacks with
    | some cb => ([], some cb)
    | none =>
      match callbacks.find? (fun pc => topic_matches pc.1 topic) with
      | some pc => ([], some pc.2)
      | none => ([], none)

theorem alookup_aupdate_self {β : Type} (k : String) (v : β) (l : List (String × β)) :
    alookup k (aupdate k v l) = some v := by
  induction l with
  | nil => simp [alookup, aupdate]
  | cons e rest ih =>
    by_cases h : k = e.1
    · simp [alookup, aupdate, h]
    · simp [alookup, aupdate, h, ih]

theorem alookup_aupdate_ne {β : Type} {k k' : String} (h : k ≠ k') (v : β)
    (l : List (String × β)) : alookup k (aupdate k' v l) = alookup k l := by
  induction l with
  | nil => simp [alookup, aupdate, h]
  | cons e rest ih =>
    by_cases h' : k' = e.1
    · subst h'
      simp [alookup, aupdate, h]
    · by_cases h'' : k = e.1 <;> simp [alookup, aupdate, h', h'', ih]

theorem alookup_aremove_self {β : Type} (k : String) (l : List (String × β)) :
    alookup k (aremove k l) = none := by
  induction l with
  | nil => simp [alookup, aremove]
  | cons e rest ih =>
    by_cases h : e.1 = k
    · simpa [aremove, h] using ih
    · have hk : k ≠ e.1 := fun hh => h hh.symm
      simpa [aremove, alookup, h, hk] using ih

theorem alookup_aremove_ne {β : Type} {k k' : String} (h : k ≠ k') (l : List (String × β)) :
    alookup k (aremove k' l) = alookup k l := by
  induction l with
  | nil => simp [alookup, aremove]
  | cons e rest ih =>
    by_cases h' : e.1 = k'
    · simpa [aremove, alookup, h', h] using ih
    · by_cases h'' : k = e.1
      · simp [aremove, alookup, h', h'']
      · simpa [aremove, alookup, h', h''] using ih

theorem alookup_mem {β : Type} {k : String} {v : β} {l : List (String × β)}
    (h : alookup k l = some v) : (k, v) ∈ l := by
  induction l with
  | nil => simp [alookup] at h
  | cons e rest ih =>
    by_cases h' : k = e.1
    · simp [alookup, h'] at h
      subst h'
      simp [← h]
    · simp [alookup, h'] at h
      exact List.mem_cons_of_mem _ (ih h)

theorem mem_alookup {β : Type} {e : String × β} {l : List (String × β)}
    (hnd : (l.map Prod.fst).Nodup) (h : e ∈ l) : alookup e.1 l = some e.2 := by
  induction l with
  | nil => simp at h
  | cons x rest ih =>
    simp only [List.map_cons, List.nodup_cons] at hnd
    rcases List.mem_cons.mp h with h | h
    · subst h
      simp [alookup]
    · have hne : e.1 ≠ x.1 := by
        intro hh
        exact hnd.1 (hh ▸ List.mem_map_of_mem Prod.fst h)
      simp [alookup, hne, ih hnd.2 h]

theorem mem_keys_aupdate {β : Type} (k x : String) (v : β) (l : List (String × β)) :
    x ∈ (aupdate k v l).map Prod.fst ↔ x = k ∨ x ∈ l.map Prod.fst := by
  induction l with
  | nil => simp [aupdate]
  | cons e rest ih =>
    by_cases h : k = e.1
    · subst h
      simp [aupdate]
    · simp only [aupdate, if_neg h, List.map_cons, List.mem_cons, ih]
      tauto

theorem nodup_keys_aupdate {β : Type} (k : String) (v : β) {l : List (String × β)}
    (h : (l.map Prod.fst).Nodup) : ((aupdate k v l).map Prod.fst).Nodup := by
  induction l with
  | nil => simp [aupdate]
  | cons e rest ih =>
    simp only [List.map_cons, List.nodup_cons] at h
    by_cases h' : k = e.1
    · subst h'
      simpa [aupdate] using h
    · simp only [aupdate, if_neg h', List.map_cons]
      refine List.nodup_cons.mpr ⟨?_, ih h.2⟩
      rw [mem_keys_aupdate]
      rintro (h'' | h'')
      · exact h' h''.symm
      · exact h.1 h''

theorem mem_sinsert (x y : String) (l : List String) :
    x ∈ sinsert y l ↔ x = y ∨ x ∈ l := by
  by_cases h : y ∈ l
  · simp only [sinsert, if_pos h]
    constructor
    · exact Or.inr
    · rintro (rfl | hx)
      · exact h
      · exact hx
  · simp [sinsert, if_neg h, List.mem_append, or_comm]

theorem mem_sremove (x y : String) (l : List String) :
    x ∈ sremove y l ↔ x ∈ l ∧ x ≠ y := by
  simp [sremove, List.mem_filter]

theorem matchLoop_eq_zip (ps : List String) (hh : "#" ∉ ps) :
    ∀ ts : List String, ps.length = ts.length →
      (matchLoop ps ts = true ↔ ∀ pt ∈ ps.zip ts, pt.1 = "+" ∨ pt.1 = pt.2) := by
  induction ps with
  | nil =>
    intro ts hlen
    simp [matchLoop]
  | cons p ps' ih =>
    intro ts hlen
    match ts with
    | [] => simp at hlen
    | t :: ts' =>
      simp only [List.length_cons, Nat.succ.injEq] at hlen
      have hp : p ≠ "#" := fun h => hh (h ▸ List.mem_cons_self p ps')
      have hh' : "#" ∉ ps' := fun h => hh (List.mem_cons_of_mem p h)
      rw [List.zip_cons_cons]
      by_cases hplus : p = "+"
      · have hL : matchLoop (p :: ps') (t :: ts') = matchLoop ps' ts' := by
          simp [matchLoop, hp, hplus]
        rw [hL, ih hh' ts' hlen]
        constructor
        · intro h pt hpt
          rcases List.mem_cons.mp hpt with rfl | hpt'
          · exact Or.inl hplus
          · exact h pt hpt'
        · intro h pt hpt
          exact h pt (List.mem_cons_of_mem _ hpt)
      · by_cases heq : p = t
        · have ht1 : t ≠ "#" := heq ▸ hp
          have ht2 : t ≠ "+" := heq ▸ hplus
          have hL : matchLoop (p :: ps') (t :: ts') = matchLoop ps' ts' := by
            rw [heq]
            simp [matchLoop, ht1, ht2]
          rw [hL, ih hh' ts' hlen]
          constructor
          · intro h pt hpt
            rcases List.mem_cons.mp hpt with rfl | hpt'
            · exact Or.inr heq
            · exact h pt hpt'
          · intro h pt hpt
            exact h pt (List.mem_cons_of_mem _ hpt)
        · have hL : matchLoop (p :: ps') (t :: ts') = false := by
            simp [matchLoop, hp, hplus, heq]
          rw [hL]
          constructor
          · intro h
            exact absurd h (by simp)
          · intro h
            rcases h (p, t) (List.mem_cons_self _ _) with h' | h'
            · exact absurd h' hplus
            · exact absurd h' heq

theorem matchLoop_hash_suffix (ps : List String) :
    ∀ ts rest : List String, ps.length = ts.length →
      (∀ pt ∈ ps.zip ts, pt.1 = "+" ∨ pt.1 = pt.2) →
      matchLoop (ps ++ ["#"]) (ts ++ rest) = true := by
  induction ps with
  | nil =>
    intro ts rest hlen _
    have : ts = [] := List.length_eq_zero.mp hlen.symm
    subst this
    simp [matchLoop]
  | cons p ps' ih =>
    intro ts rest hlen hzip
    match ts with
    | [] => simp at hlen
    | t :: ts' =>
      simp only [List.length_cons, Nat.succ.injEq] at hlen
      by_cases hp : p = "#"
      · simp [matchLoop, hp]
      · by_cases hplus : p = "+"
        · have hL : matchLoop (p :: ps' ++ ["#"]) (t :: ts' ++ rest) =
              matchLoop (ps' ++ ["#"]) (ts' ++ rest) := by
            simp [matchLoop, hp, hplus]
          rw [hL]
          exact ih ts' rest hlen (fun pt hpt => hzip pt (by simp [hpt]))
        · rcases hzip (p, t) (by simp) with h | h
          · exact absurd h hplus
          · have heq : p = t := h
            have ht1 : t ≠ "#" := heq ▸ hp
            have ht2 : t ≠ "+" := heq ▸ hplus
            have hL : matchLoop (p :: ps' ++ ["#"]) (t :: ts' ++ rest) =
                matchLoop (ps' ++ ["#"]) (ts' ++ rest) := by
              rw [List.cons_append, List.cons_append, heq]
              simp [matchLoop, ht1, ht2]
            rw [hL]
            exact ih ts' rest hlen (fun pt hpt => hzip pt (by simp [hpt]))

theorem matchLoop_hash_mid (ps : List String) :
    ∀ (rest ts : List String),
      matchLoop (ps ++ "#" :: rest) ts = matchLoop (ps ++ ["#"]) ts := by
  induction ps with
  | nil => intro rest ts; simp [matchLoop]
  | cons p ps' ih =>
    intro rest ts
    by_cases hp : p = "#"
    · simp [matchLoop, hp]
    · by_cases hplus : p = "+"
      · simp only [List.cons_append, matchLoop, if_neg hp, if_pos hplus]
        exact ih rest ts.tail
      · match ts with
        | [] => simp [matchLoop, hp, hplus]
        | t :: ts' =>
          by_cases heq : p = t
          · simp only [List.cons_append, matchLoop, if_neg hp, if_neg hplus, if_pos heq]
            exact ih rest ts'
          · simp [matchLoop, hp, hplus, heq]

/-- C6: the topic matcher satisfies the four concrete cases from the spec;
a pattern with no `#` never matches a topic with a different token count;
for equal token counts a `#`-free pattern matches exactly when every
pattern token is `+` or equals the topic token at its position (so `+`
matches exactly one token and never crosses a `/`); and a final `#`
matches any remaining suffix, including the empty one. -/
theorem topic_matcher_spec :
    topic_matches "devices/+/status" "devices/42/status" = true ∧
    topic_matches "devices/#" "devices/42/status/extra" = true ∧
    topic_matches "devices/+/status" "devices/42/other" = false ∧
    topic_matches "a/b" "a/b/c" = false ∧
    (∀ p t : String, "#" ∉ tokens p → (tokens p).length ≠ (tokens t).length →
      topic_matches p t = false) ∧
    (∀ ps ts : List String, "#" ∉ ps → ps.length = ts.length →
      (matchLoop ps ts = true ↔ ∀ pt ∈ ps.zip ts, pt.1 = "+" ∨ pt.1 = pt.2)) ∧
    (∀ ps ts rest : List String, ps.length = ts.length →
      (∀ pt ∈ ps.zip ts, pt.1 = "+" ∨ pt.1 = pt.2) →
      matchLoop (ps ++ ["#"]) (ts ++ rest) = true) := by
  refine ⟨by decide, by decide, by decide, by decide, ?_, ?_, ?_⟩
  · intro p t hh hlen
    simp [topic_matches, if_pos (And.intro hlen hh)]
  · intro ps ts hh hlen
    exact matchLoop_eq_zip ps hh ts hlen
  · intro ps ts rest hlen hzip
    exact matchLoop_hash_suffix ps ts rest hlen hzip

theorem topic_matcher_spec_witness :
    topic_matches "a/b/c" "a/b" = false ∧ matchLoop ["x", "+"] ["x", "y"] = true :=
  ⟨topic_matcher_spec.2.2.2.2.1 "a/b/c" "a/b" (by decide) (by decide),
   (topic_matcher_spec.2.2.2.2.2.1 ["x", "+"] ["x", "y"] (by decide) (by decide)).mpr
     (by decide)⟩

/-- C7 counterexample: the pattern `"a/#/b"` has `#` in a non-final
position, yet it matches the topic `"a/x/y"`, which is not literally
equal to it — so a malformed pattern does match beyond literal
equality, contradicting the claim. -/
theorem malformed_pattern_counterexample :
    topic_matches "a/#/b" "a/x/y" = true ∧ ("a/#/b" : String) ≠ "a/x/y" := by
  constructor
  · decide
  · decide

/-- C7 amended: the matcher is total (always returns a boolean), and a
`#` terminates matching wherever it appears: pattern tokens after a `#`
are ignored, so a pattern with `#` in a non-final position matches
exactly the topics matched by the pattern truncated right after that
`#` — in particular it can match topics that are not literally equal to
it. -/
theorem malformed_pattern_matches :
    (∀ ps rest ts : List String,
      matchLoop (ps ++ "#" :: rest) ts = matchLoop (ps ++ ["#"]) ts) ∧
    (∀ t : String, topic_matches "a/#/b" t = topic_matches "a/#" t) ∧
    (∀ p t : String, topic_matches p t = true ∨ topic_matches p t = false) := by
  refine ⟨fun ps rest ts => matchLoop_hash_mid ps rest ts, ?_, ?_⟩
  · intro t
    have h1 : tokens "a/#/b" = ["a", "#", "b"] := by decide
    have h2 : tokens "a/#" = ["a", "#"] := by decide
    simp only [topic_matches, h1, h2]
    rw [if_neg (by simp), if_neg (by simp)]
    exact matchLoop_hash_mid ["a"] ["b"] (tokens t)
  · intro p t
    cases h : topic_matches p t
    · exact Or.inr rfl
    · exact Or.inl rfl

/-! ### Registry lemmas -/

theorem alookup_map_val {β γ : Type} (g : β → γ) (k : String) (l : List (String × β)) :
    alookup k (l.map (fun e => (e.1, g e.2))) = (alookup k l).map g := by
  induction l with
  | nil => simp [alookup]
  | cons e rest ih => by_cases h : k = e.1 <;> simp [alookup, h, ih]

theorem sweep_lookup (s : DeviceManager) (now : Nat) (f : String → Bool) (d : String) :
    alookup d (monitor_heartbeats_sweep s now f).devices
      = (alookup d s.devices).map (fun i => sweepInfo s.heartbeat_timeout now i) := by
  simp only [monitor_heartbeats_sweep]
  exact alookup_map_val _ d s.devices

theorem sweep_keys (s : DeviceManager) (now : Nat) (f : String → Bool) :
    (monitor_heartbeats_sweep s now f).devices.map Prod.fst = s.devices.map Prod.fst := by
  simp only [monitor_heartbeats_sweep, List.map_map]
  rfl

theorem sweep_timeout (s : DeviceManager) (now : Nat) (f : String → Bool) :
    (monitor_heartbeats_sweep s now f).heartbeat_timeout = s.heartbeat_timeout := rfl

theorem mem_swept_iff {s : DeviceManager} {now : Nat} {d : String} {i : DeviceInfo}
    (hnd : (s.devices.map Prod.fst).Nodup) (hl : alookup d s.devices = some i) :
    d ∈ (s.devices.filter (fun e => sweepCond s.heartbeat_timeout now e.2)).map Prod.fst
      ↔ sweepCond s.heartbeat_timeout now i = true := by
  constructor
  · intro h
    rcases List.mem_map.mp h with ⟨e, he, hek⟩
    rcases List.mem_filter.mp he with ⟨hmem, hcond⟩
    have hsame := mem_alookup hnd hmem
    rw [hek, hl] at hsame
    have hei : i = e.2 := Option.some.inj hsame
    rwa [← hei] at hcond
  · intro h
    exact List.mem_map.mpr ⟨(d, i), List.mem_filter.mpr ⟨alookup_mem hl, h⟩, rfl⟩

theorem heartbeat_lookup_self (s : DeviceManager) (d : String) (now : Nat) (dbf : Bool)
    (info : DeviceInfo) (h : alookup d s.devices = some info) :
    alookup d (update_device_heartbeat s d now dbf).2.devices
      = some { info with status := DStatus.active, last_heartbeat := now } := by
  simp [update_device_heartbeat, h, alookup_aupdate_self]

theorem heartbeat_lookup_other (s : DeviceManager) (c d : String) (now : Nat) (dbf : Bool)
    (h : d ≠ c) :
    alookup d (update_device_heartbeat s c now dbf).2.devices = alookup d s.devices := by
  cases hc : alookup c s.devices with
  | none => simp [update_device_heartbeat, hc]
  | some j => simp [update_device_heartbeat, hc, alookup_aupdate_ne h]

theorem heartbeat_timeout_eq (s : DeviceManager) (c : String) (now : Nat) (dbf : Bool) :
    (update_device_heartbeat s c now dbf).2.heartbeat_timeout = s.heartbeat_timeout := by
  cases hc : alookup c s.devices with
  | none => simp [update_device_heartbeat, hc]
  | some j => simp [update_device_heartbeat, hc]

theorem nondecFrom_mono (t0 t1 : Nat) (ts : List Nat) (h : t0 ≤ t1)
    (hnd : nondecFrom t1 ts = true) : nondecFrom t0 ts = true := by
  cases ts with
  | nil => rfl
  | cons t ts' =>
    simp only [nondecFrom, Bool.and_eq_true, decide_eq_true_eq] at *
    exact ⟨le_trans h hnd.1, hnd.2⟩

theorem runHeartbeats_mono (d : String) :
    ∀ (calls : List (String × Nat × Bool)) (s : DeviceManager) (info : DeviceInfo),
      alookup d s.devices = some info →
      nondecFrom info.last_heartbeat (calls.map (fun c => c.2.1)) = true →
      ∃ info', alookup d (runHeartbeats s calls).devices = some info' ∧
        info.last_heartbeat ≤ info'.last_heartbeat := by
  intro calls
  induction calls with
  | nil => exact fun s info h _ => ⟨info, h, le_refl _⟩
  | cons c rest ih =>
    intro s info h hnd
    simp only [List.map_cons, nondecFrom, Bool.and_eq_true, decide_eq_true_eq] at hnd
    by_cases hc : c.1 = d
    · have h2 : alookup d (update_device_heartbeat s c.1 c.2.1 c.2.2).2.devices
          = some { info with status := DStatus.active, last_heartbeat := c.2.1 } := by
        rw [hc]
        exact heartbeat_lookup_self s d c.2.1 c.2.2 info h
      obtain ⟨info', hi', hle⟩ := ih _ _ h2 hnd.2
      exact ⟨info', hi', le_trans hnd.1 hle⟩
    · have h2 : alookup d (update_device_heartbeat s c.1 c.2.1 c.2.2).2.devices
          = some info := by
        rw [heartbeat_lookup_other s c.1 d c.2.1 c.2.2 (fun hh => hc hh.symm)]
        exact h
      exact ih _ _ h2 (nondecFrom_mono _ _ _ hnd.1 hnd.2)

theorem regInv_init : RegInv initDM := by
  constructor
  · simp [initDM]
  · intro id
    simp [initDM, get_device_status, alookup]

theorem regInv_register (s : DeviceManager) (h : RegInv s) (id ip : String) (now : Nat) :
    RegInv (register_device s id ip now) := by
  obtain ⟨hnd, hiff⟩ := h
  refine ⟨nodup_keys_aupdate _ _ hnd, fun d => ?_⟩
  show d ∈ sinsert id s.active_devices ↔ _
  rw [mem_sinsert]
  by_cases hd : d = id
  · subst hd
    simp [get_device_status, register_device, alookup_aupdate_self]
  · simp only [get_device_status, register_device, alookup_aupdate_ne hd]
    constructor
    · rintro (rfl | hmem)
      · exact absurd rfl hd
      · have hx := (hiff d).mp hmem
        simpa [get_device_status] using hx
    · intro hst
      refine Or.inr ((hiff d).mpr ?_)
      simpa [get_device_status] using hst

theorem regInv_heartbeat (s : DeviceManager) (h : RegInv s) (id : String) (now : Nat)
    (dbf : Bool) : RegInv (update_device_heartbeat s id now dbf).2 := by
  obtain ⟨hnd, hiff⟩ := h
  cases hl : alookup id s.devices with
  | none => simpa [update_device_heartbeat, hl] using And.intro hnd hiff
  | some info =>
    refine ⟨?_, fun d => ?_⟩
    · simpa [update_device_heartbeat, hl] using nodup_keys_aupdate id _ hnd
    · simp only [update_device_heartbeat, hl]
      show d ∈ sinsert id s.active_devices ↔ _
      rw [mem_sinsert]
      by_cases hd : d = id
      · subst hd
        simp [get_device_status, alookup_aupdate_self]
      · simp only [get_device_status, alookup_aupdate_ne hd]
        constructor
        · rintro (rfl | hmem)
          · exact absurd rfl hd
          · have hx := (hiff d).mp hmem
            simpa [get_device_status] using hx
        · intro hst
          refine Or.inr ((hiff d).mpr ?_)
          simpa [get_device_status] using hst

theorem regInv_unregister (s : DeviceManager) (h : RegInv s) (id : String) :
    RegInv (unregister_device s id).2 := by
  obtain ⟨hnd, hiff⟩ := h
  cases hl : alookup id s.devices with
  | none => simpa [unregister_device, hl] using And.intro hnd hiff
  | some info =>
    refine ⟨?_, fun d => ?_⟩
    · have hsub : ((aremove id s.devices).map Prod.fst).Sublist (s.devices.map Prod.fst) :=
        (List.filter_sublist _).map _
      simpa [unregister_device, hl] using hnd.sublist hsub
    · simp only [unregister_device, hl]
      show d ∈ sremove id s.active_devices ↔ _
      rw [mem_sremove]
      by_cases hd : d = id
      · subst hd
        simp [get_device_status, alookup_aremove_self]
      · simp only [get_device_status, alookup_aremove_ne hd]
        constructor
        · rintro ⟨hmem, _⟩
          have hx := (hiff d).mp hmem
          simpa [get_device_status] using hx
        · intro hst
          refine ⟨(hiff d).mpr ?_, hd⟩
          simpa [get_device_status] using hst

theorem regInv_sweep (s : DeviceManager) (h : RegInv s) (now : Nat)
    (dbFail : String → Bool) : RegInv (monitor_heartbeats_sweep s now dbFail) := by
  obtain ⟨hnd, hiff⟩ := h
  refine ⟨by rw [sweep_keys]; exact hnd, fun d => ?_⟩
  have hact : d ∈ (monitor_heartbeats_sweep s now dbFail).active_devices ↔
      d ∈ s.active_devices ∧
        d ∉ (s.devices.filter (fun e => sweepCond s.heartbeat_timeout now e.2)).map Prod.fst := by
    show d ∈ List.filter _ s.active_devices ↔ _
    rw [List.mem_filter]
    simp
  rw [hact]
  simp only [get_device_status, sweep_lookup]
  cases hl : alookup d s.devices with
  | none =>
    have hnm : d ∉ s.active_devices := by
      intro hmem
      have hx := (hiff d).mp hmem
      simp [get_device_status, hl] at hx
    simp [hnm]
  | some i =>
    have hmemiff : d ∈ s.active_devices ↔ i.status = DStatus.active := by
      rw [hiff d]
      simp [get_device_status, hl]
    have hsw := @mem_swept_iff s now d i hnd hl
    simp only [Option.map_some']
    by_cases hc : sweepCond s.heartbeat_timeout now i = true
    · have hoff : sweepInfo s.heartbeat_timeout now i = { i with status := DStatus.offline } := by
        simp [sweepInfo, hc]
      rw [hoff]
      constructor
      · rintro ⟨_, hnsw⟩
        exact absurd (hsw.mpr hc) hnsw
      · intro hcontra
        simp at hcontra
    · have hkeep : sweepInfo s.heartbeat_timeout now i = i := by
        simp [sweepInfo, hc]
      rw [hkeep]
      constructor
      · rintro ⟨hmem, _⟩
        simp [hmemiff.mp hmem]
      · intro hst
        have hia : i.status = DStatus.active := by
          simpa using hst
        exact ⟨hmemiff.mpr hia, fun hin => hc (hsw.mp hin)⟩

/-! ### Claim theorems for the registry -/

/-- C3: the invariant "a device id is in the active set iff its record
exists with status Active" (together with key uniqueness) holds for the
initial registry and is preserved by `register_device`,
`update_device_heartbeat`, `unregister_device`, and one
`_monitor_heartbeats` sweep iteration, so no reachable registry state
shows a device Active in one view and absent or Offline in the other. -/
theorem registry_invariant (s : DeviceManager) (h : RegInv s) :
    RegInv initDM ∧
    (∀ id ip now, RegInv (register_device s id ip now)) ∧
    (∀ id now dbf, RegInv (update_device_heartbeat s id now dbf).2) ∧
    (∀ id, RegInv (unregister_device s id).2) ∧
    (∀ now dbf, RegInv (monitor_heartbeats_sweep s now dbf)) :=
  ⟨regInv_init,
   fun id ip now => regInv_register s h id ip now,
   fun id now dbf => regInv_heartbeat s h id now dbf,
   fun id => regInv_unregister s h id,
   fun now dbf => regInv_sweep s h now dbf⟩

theorem registry_invariant_witness :
    RegInv (register_device dmEx "cam1" "10.0.0.5" 0) :=
  (registry_invariant dmEx
      (regInv_register initDM regInv_init "cam1" "10.0.0.5" 0)).2.1 "cam1" "10.0.0.5" 0

/-- C1: a device whose record is Active with `last_heartbeat = T` and no
further heartbeat is flipped to Offline by a sweep run at any
`now > T + heartbeat_timeout` (default 300 s), exactly once — a second
sweep leaves the record unchanged; a heartbeat at `thb` followed by a
sweep at `tsw ≤ thb + heartbeat_timeout` prevents the transition; and a
sweep never removes a record or touches anything but the status field. -/
theorem sweep_correct (s : DeviceManager) (d : String) (info : DeviceInfo) (now : Nat)
    (f : String → Bool)
    (hd : alookup d s.devices = some info)
    (hact : info.status = DStatus.active)
    (hlate : s.heartbeat_timeout + info.last_heartbeat < now) :
    alookup d (monitor_heartbeats_sweep s now f).devices
        = some { info with status := DStatus.offline } ∧
    (∀ now2 f2,
      alookup d (monitor_heartbeats_sweep (monitor_heartbeats_sweep s now f) now2 f2).devices
        = some { info with status := DStatus.offline }) ∧
    (∀ thb f1 tsw f2, tsw ≤ thb + s.heartbeat_timeout →
      alookup d (monitor_heartbeats_sweep (update_device_heartbeat s d thb f1).2 tsw f2).devices
        = some { info with status := DStatus.active, last_heartbeat := thb }) ∧
    (∀ (s' : DeviceManager) (n : Nat) (f' : String → Bool),
      (monitor_heartbeats_sweep s' n f').devices.map Prod.fst = s'.devices.map Prod.fst ∧
      ∀ d' i', alookup d' s'.devices = some i' →
        ∃ i'', alookup d' (monitor_heartbeats_sweep s' n f').devices = some i'' ∧
          i''.ip_address = i'.ip_address ∧ i''.last_heartbeat = i'.last_heartbeat) ∧
    initDM.heartbeat_timeout = 300 := by
  have hcond : sweepCond s.heartbeat_timeout now info = true := by
    simp only [sweepCond, hact, Bool.and_eq_true, decide_eq_true_eq]
    exact ⟨by omega, rfl⟩
  have hA : alookup d (monitor_heartbeats_sweep s now f).devices
      = some { info with status := DStatus.offline } := by
    rw [sweep_lookup, hd]
    simp [sweepInfo, hcond]
  refine ⟨hA, ?_, ?_, ?_, rfl⟩
  · intro now2 f2
    rw [sweep_lookup, hA]
    have : sweepCond (monitor_heartbeats_sweep s now f).heartbeat_timeout now2
        { info with status := DStatus.offline } = false := by
      simp [sweepCond]
    simp [sweepInfo, this]
  · intro thb f1 tsw f2
    intro htsw
    have h2 := heartbeat_lookup_self s d thb f1 info hd
    rw [sweep_lookup, h2]
    have hto := heartbeat_timeout_eq s d thb f1
    have : sweepCond (update_device_heartbeat s d thb f1).2.heartbeat_timeout tsw
        { info with status := DStatus.active, last_heartbeat := thb } = false := by
      rw [hto]
      simp only [sweepCond, Bool.and_eq_true, decide_eq_true_eq]
      simp only [Bool.and_eq_false_iff]
      left
      simp only [decide_eq_false_iff_not]
      omega
    simp [sweepInfo, this]
  · intro s' n f'
    refine ⟨sweep_keys s' n f', fun d' i' h' => ?_⟩
    refine ⟨sweepInfo s'.heartbeat_timeout n i', ?_, ?_⟩
    · rw [sweep_lookup, h']
      rfl
    · constructor <;> (unfold sweepInfo; split <;> rfl)

theorem sweep_correct_witness :
    alookup "cam1" (monitor_heartbeats_sweep dmEx 301 (fun _ => false)).devices
      = some ⟨"10.0.0.5", DStatus.offline, 0⟩ :=
  (sweep_correct dmEx "cam1" ⟨"10.0.0.5", DStatus.active, 0⟩ 301 (fun _ => false)
    (by decide) rfl (by decide)).1

/-- C2: a heartbeat call returns `true` exactly when the device is
known; a successful call stamps `last_heartbeat = now` and forces status
Active; the returned flag and the in-memory registry (device map and
active set) are the same whether or not the durable-store sync fails;
and over any call sequence whose clock values are non-decreasing and at
least the device's current `last_heartbeat`, the device's
`last_heartbeat` never decreases. -/
theorem heartbeat_spec (s : DeviceManager) (d : String) (now : Nat) (dbf : Bool) :
    ((update_device_heartbeat s d now dbf).1 = true ↔ (alookup d s.devices).isSome = true) ∧
    (∀ info, alookup d s.devices = some info →
      alookup d (update_device_heartbeat s d now dbf).2.devices
        = some { info with status := DStatus.active, last_heartbeat := now }) ∧
    (∀ dbf',
      (update_device_heartbeat s d now dbf).1 = (update_device_heartbeat s d now dbf').1 ∧
      (update_device_heartbeat s d now dbf).2.devices
        = (update_device_heartbeat s d now dbf').2.devices ∧
      (update_device_heartbeat s d now dbf).2.active_devices
        = (update_device_heartbeat s d now dbf').2.active_devices) ∧
    (∀ calls info, alookup d s.devices = some info →
      nondecFrom info.last_heartbeat (calls.map (fun c => c.2.1)) = true →
      ∃ info', alookup d (runHeartbeats s calls).devices = some info' ∧
        info.last_heartbeat ≤ info'.last_heartbeat) := by
  refine ⟨?_, ?_, ?_, ?_⟩
  · cases hl : alookup d s.devices <;> simp [update_device_heartbeat, hl]
  · intro info h
    exact heartbeat_lookup_self s d now dbf info h
  · intro dbf'
    cases hl : alookup d s.devices <;> simp [update_device_heartbeat, hl]
  · intro calls info h hnd
    exact runHeartbeats_mono d calls s info h hnd

theorem heartbeat_spec_witness :
    alookup "cam1" (update_device_heartbeat dmEx "cam1" 5 false).2.devices
      = some ⟨"10.0.0.5", DStatus.active, 5⟩ :=
  (heartbeat_spec dmEx "cam1" 5 false).2.1 ⟨"10.0.0.5", DStatus.active, 0⟩ (by decide)

theorem length_filter_add {α : Type} (p : α → Bool) (l : List α) :
    (l.filter p).length + (l.filter (fun x => !(p x))).length = l.length := by
  induction l with
  | nil => rfl
  | cons x rest ih =>
    cases hp : p x <;> simp [List.filter_cons, hp] <;> omega

theorem broadcastGo_counts (devices : List (String × DeviceInfo))
    (outcome : String → BOutcome) :
    ∀ l : List String, l.all (fun id => (alookup id devices).isSome) = true →
      broadcastGo devices outcome l =
        ((l.filter (fun id => outcome id == BOutcome.ok)).length,
         (l.filter (fun id => !(outcome id == BOutcome.ok))).length) := by
  intro l
  induction l with
  | nil => intro _; rfl
  | cons id rest ih =>
    intro h
    simp only [List.all_cons, Bool.and_eq_true] at h
    have hrest := ih h.2
    cases hl : alookup id devices with
    | none => rw [hl] at h; simp at h
    | some i =>
      cases ho : outcome id with
      | ok => simp [broadcastGo, hl, ho, hrest, List.filter_cons]
      | httpFail => simp [broadcastGo, hl, ho, hrest, List.filter_cons]
      | exn => simp [broadcastGo, hl, ho, hrest, List.filter_cons]

/-- C8: a broadcast attempts delivery to every active device exactly
once (no retries, no early abort), counting 200 replies in
`sent_count` and non-200 replies or exceptions in `failed_count`, with
`sent + failed` covering the whole active set; in the concrete
three-device scenario where only `"d2"` fails it returns `(2, 1)`. -/
theorem broadcast_partial_failure (s : DeviceManager) (outcome : String → BOutcome)
    (h : s.active_devices.all (fun id => (alookup id s.devices).isSome) = true) :
    (broadcast_message s outcome).1
        = (s.active_devices.filter (fun id => outcome id == BOutcome.ok)).length ∧
    (broadcast_message s outcome).2
        = (s.active_devices.filter (fun id => !(outcome id == BOutcome.ok))).length ∧
    (broadcast_message s outcome).1 + (broadcast_message s outcome).2
        = s.active_devices.length ∧
    broadcast_message dm3 out3 = (2, 1) := by
  have hc := broadcastGo_counts s.devices outcome s.active_devices h
  refine ⟨?_, ?_, ?_, by decide⟩
  · show (broadcastGo s.devices outcome s.active_devices).1 = _
    rw [hc]
  · show (broadcastGo s.devices outcome s.active_devices).2 = _
    rw [hc]
  · show (broadcastGo s.devices outcome s.active_devices).1
        + (broadcastGo s.devices outcome s.active_devices).2 = _
    rw [hc]
    exact length_filter_add _ _

theorem broadcast_partial_failure_witness : broadcast_message dm3 out3 = (2, 1) :=
  (broadcast_partial_failure dm3 out3 (by decide)).2.2.2

/-! ### Pipeline claim theorems -/

theorem runOps_inv : ∀ (ops : List DPOp) (dp : DataProcessor),
    dp.processing_queue.length ≤ dp.max_queue_size →
    (runOps dp ops).max_queue_size = dp.max_queue_size ∧
    (runOps dp ops).processing_queue.length ≤ dp.max_queue_size := by
  intro ops
  induction ops with
  | nil => exact fun dp h => ⟨rfl, h⟩
  | cons op rest ih =>
    intro dp h
    have hstep : (applyOp dp op).max_queue_size = dp.max_queue_size ∧
        (applyOp dp op).processing_queue.length ≤ dp.max_queue_size := by
      cases op with
      | enqImage d m t =>
        by_cases hf : dp.max_queue_size ≤ dp.processing_queue.length
        · have he : applyOp dp (DPOp.enqImage d m t) = dp := by
            simp [applyOp, process_image, if_pos hf]
          rw [he]
          exact ⟨rfl, h⟩
        · have hlt : dp.processing_queue.length < dp.max_queue_size := Nat.not_le.mp hf
          constructor
          · simp [applyOp, process_image, if_neg hf]
          · have he : (applyOp dp (DPOp.enqImage d m t)).processing_queue
                = dp.processing_queue ++ [⟨"image", Payload.image d, m, t⟩] := by
              simp [applyOp, process_image, if_neg hf]
            rw [he]
            simp only [List.length_append, List.length_cons, List.length_nil]
            omega
      | enqData d ty m t =>
        by_cases hf : dp.max_queue_size ≤ dp.processing_queue.length
        · have he : applyOp dp (DPOp.enqData d ty m t) = dp := by
            simp [applyOp, process_data, if_pos hf]
          rw [he]
          exact ⟨rfl, h⟩
        · have hlt : dp.processing_queue.length < dp.max_queue_size := Nat.not_le.mp hf
          constructor
          · simp [applyOp, process_data, if_neg hf]
          · have he : (applyOp dp (DPOp.enqData d ty m t)).processing_queue
                = dp.processing_queue ++ [⟨ty, d, m, t⟩] := by
              simp [applyOp, process_data, if_neg hf]
            rw [he]
            simp only [List.length_append, List.length_cons, List.length_nil]
            omega
      | deq =>
        refine ⟨rfl, ?_⟩
        show dp.processing_queue.tail.length ≤ dp.max_queue_size
        have := List.length_tail dp.processing_queue
        omega
    obtain ⟨hmax, hlen⟩ := hstep
    have h1 : (applyOp dp op).processing_queue.length ≤ (applyOp dp op).max_queue_size := by
      rw [hmax]
      exact hlen
    obtain ⟨ih1, ih2⟩ := ih (applyOp dp op) h1
    constructor
    · show (runOps (applyOp dp op) rest).max_queue_size = _
      rw [ih1, hmax]
    · show (runOps (applyOp dp op) rest).processing_queue.length ≤ _
      exact le_trans ih2 (le_of_eq hmax)

/-- C4: the queue capacity defaults to 100; an enqueue on a queue at (or
past) capacity reports failure and changes nothing, without blocking
(it returns immediately in this functional model); an enqueue below
capacity appends the item and reports success; and over every sequence
of enqueue/dequeue operations from a within-capacity state the queue
length never exceeds the capacity. -/
theorem queue_backpressure (dp : DataProcessor) (image_data : String) (data : Payload)
    (data_type : String) (meta : Meta) (now : Int) :
    ((initDP "dev").max_queue_size = 100 ∧ (initDP "dev").processing_queue = []) ∧
    (dp.max_queue_size ≤ dp.processing_queue.length →
      process_image dp image_data meta now = (false, dp) ∧
      process_data dp data data_type meta now = (false, dp)) ∧
    (dp.processing_queue.length < dp.max_queue_size →
      (process_image dp image_data meta now).1 = true ∧
      (process_image dp image_data meta now).2.processing_queue
        = dp.processing_queue ++ [⟨"image", Payload.image image_data, meta, now⟩] ∧
      (process_data dp data data_type meta now).1 = true ∧
      (process_data dp data data_type meta now).2.processing_queue
        = dp.processing_queue ++ [⟨data_type, data, meta, now⟩]) ∧
    (∀ ops, dp.processing_queue.length ≤ dp.max_queue_size →
      (runOps dp ops).processing_queue.length ≤ dp.max_queue_size) := by
  refine ⟨⟨rfl, rfl⟩, ?_, ?_, ?_⟩
  · intro h
    constructor <;> simp [process_image, process_data, if_pos h]
  · intro h
    have hf : ¬ dp.max_queue_size ≤ dp.processing_queue.length := Nat.not_le.mpr h
    refine ⟨?_, ?_, ?_, ?_⟩ <;> simp [process_image, process_data, if_neg hf]
  · intro ops h
    exact (runOps_inv ops dp h).2

theorem queue_backpressure_witness :
    (runOps (initDP "dev") [DPOp.deq]).processing_queue.length
      ≤ (initDP "dev").max_queue_size :=
  (queue_backpressure (initDP "dev") "img" (Payload.raw "r") "sensor" ⟨none, false⟩
    0).2.2.2 [DPOp.deq] (by decide)

/-- C5: with the cooldown map initially empty for subject `u`, the
first attendance item forwards a report and records its timestamp; a
second item for the same subject within the cooldown window is
suppressed — no report, cooldown map unchanged — so exactly one report
goes out; a second item at or beyond the window forwards as well and
overwrites the subject's cooldown timestamp. The default window is
60 s. -/
theorem attendance_dedup (device_id u : String) (interval : Int)
    (st0 : List (String × Int)) (data1 data2 : AttPayload) (m1 m2 : Meta) (t1 t2 : Int)
    (hu : u ≠ "") (h1 : data1.user_id = some u) (h2 : data2.user_id = some u)
    (h0 : alookup u st0 = none) :
    (process_attendance_data device_id interval st0 data1 m1 t1).2.isSome = true ∧
    alookup u (process_attendance_data device_id interval st0 data1 m1 t1).1 = some t1 ∧
    (t2 - t1 < interval →
      process_attendance_data device_id interval
          (process_attendance_data device_id interval st0 data1 m1 t1).1 data2 m2 t2
        = ((process_attendance_data device_id interval st0 data1 m1 t1).1, none)) ∧
    (interval ≤ t2 - t1 →
      (process_attendance_data device_id interval
          (process_attendance_data device_id interval st0 data1 m1 t1).1 data2 m2 t2).2.isSome
        = true ∧
      alookup u (process_attendance_data device_id interval
          (process_attendance_data device_id interval st0 data1 m1 t1).1 data2 m2 t2).1
        = some t2) ∧
    (initDP device_id).min_attendance_interval = 60 := by
  have hr1 : process_attendance_data device_id interval st0 data1 m1 t1
      = (aupdate u t1 st0,
         some ⟨u, device_id, t1, data1.verification_method.getD "manual",
           m1.location.getD "", data1.status.getD "present"⟩) := by
    simp [process_attendance_data, h1, hu, h0]
  rw [hr1]
  refine ⟨rfl, alookup_aupdate_self u t1 st0, ?_, ?_, rfl⟩
  · intro hlt
    simp [process_attendance_data, h2, hu, alookup_aupdate_self, if_pos hlt]
  · intro hge
    have hnlt : ¬ (t2 - t1 < interval) := not_lt.mpr hge
    constructor
    · simp [process_attendance_data, h2, hu, alookup_aupdate_self, if_neg hnlt]
    · simp [process_attendance_data, h2, hu, alookup_aupdate_self, if_neg hnlt]

theorem attendance_dedup_witness :
    alookup "u1"
        (process_attendance_data "dev" 60 [] ⟨some "u1", none, none⟩ ⟨none, false⟩ 100).1
      = some 100 :=
  (attendance_dedup "dev" "u1" 60 [] ⟨some "u1", none, none⟩ ⟨some "u1", none, none⟩
    ⟨none, false⟩ ⟨none, false⟩ 100 130 (by decide) rfl rfl rfl).2.1

/-- C10: an attendance item with a missing or empty `user_id` forwards
nothing and leaves the cooldown map exactly as it was, so it cannot
influence the dedup decision of any later item. -/
theorem attendance_missing_user (device_id : String) (interval : Int)
    (st : List (String × Int)) (data : AttPayload) (meta : Meta) (t : Int)
    (h : data.user_id = none ∨ data.user_id = some "") :
    process_attendance_data device_id interval st data meta t = (st, none) := by
  rcases h with h | h <;> simp [process_attendance_data, h]

theorem attendance_missing_user_witness :
    process_attendance_data "dev" 60 [("u2", 5)] ⟨none, none, none⟩ ⟨none, false⟩ 0
      = ([("u2", 5)], none) :=
  attendance_missing_user "dev" 60 [("u2", 5)] ⟨none, none, none⟩ ⟨none, false⟩ 0
    (Or.inl rfl)

/-! ### Control-message claim theorems -/

/-- C9 counterexample: the unknown command `"shutdown"` produces no
acknowledgement at all — the handler's `else` branch only logs — so the
claim that unknown commands are acknowledged with a failure status is
false on the code. -/
theorem unknown_command_counterexample :
    handle_control_message "dev1" (ControlPayload.json (some "shutdown")) = [] := by
  rfl

/-- C9 amended: an unknown command is logged but publishes no
acknowledgement (exactly like a missing/empty command and like a
malformed payload); a message on a topic matching no subscription — and
not the device's control topic — produces no acknowledgement and
invokes no handler; and each recognized command (`restart`, `config`,
`ping`) publishes exactly one acknowledgement on the reply topic. -/
theorem control_command_acks :
    (∀ device_id c, c ≠ "" → c ≠ "restart" → c ≠ "config" → c ≠ "ping" →
      handle_control_message device_id (ControlPayload.json (some c)) = []) ∧
    (∀ device_id c, c = "restart" ∨ c = "config" ∨ c = "ping" →
      (handle_control_message device_id (ControlPayload.json (some c))).length = 1 ∧
      ∀ a ∈ handle_control_message device_id (ControlPayload.json (some c)),
        a.topic = control_ack_topic device_id) ∧
    (∀ (device_id topic : String) (callbacks : List (String × Nat)) (p : ControlPayload),
      topic ≠ control_topic device_id →
      alookup topic callbacks = none →
      callbacks.find? (fun pc => topic_matches pc.1 topic) = none →
      on_message device_id callbacks topic p = ([], none)) := by
  refine ⟨?_, ?_, ?_⟩
  · intro did c h0 h1 h2 h3
    simp [handle_control_message, h0, h1, h2, h3]
  · intro did c hc
    rcases hc with rfl | rfl | rfl
    · have he : handle_control_message did (ControlPayload.json (some "restart"))
          = [⟨control_ack_topic did, "restart", some "received"⟩] := rfl
      rw [he]
      refine ⟨rfl, ?_⟩
      intro a ha
      rw [List.mem_singleton] at ha
      subst ha
      rfl
    · have he : handle_control_message did (ControlPayload.json (some "config"))
          = [⟨control_ack_topic did, "config", some "applied"⟩] := rfl
      rw [he]
      refine ⟨rfl, ?_⟩
      intro a ha
      rw [List.mem_singleton] at ha
      subst ha
      rfl
    · have he : handle_control_message did (ControlPayload.json (some "ping"))
          = [⟨control_ack_topic did, "pong", none⟩] := rfl
      rw [he]
      refine ⟨rfl, ?_⟩
      intro a ha
      rw [List.mem_singleton] at ha
      subst ha
      rfl
  · intro did topic cbs p hne hl hf
    simp [on_message, hne, hl, hf]

theorem control_command_acks_witness :
    handle_control_message "dev1" (ControlPayload.json (some "selfdestruct")) = [] :=
  control_command_acks.1 "dev1" "selfdestruct" (by decide) (by decide) (by decide)
    (by decide)

end SmartAttendance
